import Mathlib

/-!
Shallow embedding of the wasminspect debugger-server RPC proxy, the
instruction lifter and the VM host bridge, with theorems checking the
natural-language specification against the code.

Sources embedded:
  * crates/debugger-server/src/debugger_proxy.rs
  * crates/vm/src/inst.rs (BrTableData, transform_inst)
  * crates/core/src/vm/host.rs (HostFuncBody::call, HostContext)
  * crates/core/src/vm/module.rs (DefinedModuleInstance exported lookups)

Rust panics (unreachable!, unimplemented!, unwrap on None, slice range
failures, debug-mode integer underflow) are modelled as a distinguished
panic outcome; fallible Rust code returns an error outcome. Native f64
arithmetic (the casts inside from_js_number) is kept abstract behind a
FloatModel record of cast functions, since the claims under study are
about which cast is applied to which slot, not about IEEE-754 rounding.
-/

namespace Wasminspect

/-- The subset of wasmparser value types relevant here: the four numeric
types plus the non-numeric types that from_js_number cannot convert. -/
inductive Ty where
  | I32
  | I64
  | F32
  | F64
  | V128
  | FuncRef
  | ExternRef
  deriving DecidableEq, Repr

/-- rpc JSNumber is an f64 on the wire; modelled by its 64-bit pattern. -/
structure JSNumber where
  bits : Nat
  deriving DecidableEq, Repr

/-- Abstract model of the native float casts used by from_js_number:
value as i32, value as i64, the u32 pattern of (value as f32) and the
u64 pattern of the value itself. The structural claims proved below hold
for every choice of these cast functions. -/
structure FloatModel where
  asI32 : JSNumber → Int
  asI64 : JSNumber → Int
  f32Bits : JSNumber → Nat
  f64Bits : JSNumber → Nat

/-- wasminspect_vm WasmValue: I32/I64 carry integers, F32/F64 carry the
raw bit patterns (u32/u64 in the source). -/
inductive WasmValue where
  | I32 (v : Int)
  | I64 (v : Int)
  | F32 (bits : Nat)
  | F64 (bits : Nat)
  deriving DecidableEq, Repr

/-- debugger_proxy.rs from_js_number: converts a JSNumber to a typed
WasmValue for the four numeric types; every other type falls into the
unreachable! arm, modelled as none. -/
def from_js_number (fm : FloatModel) (value : JSNumber) (ty : Ty) : Option WasmValue :=
  match ty with
  | .I32 => some (.I32 (fm.asI32 value))
  | .I64 => some (.I64 (fm.asI64 value))
  | .F32 => some (.F32 (fm.f32Bits value))
  | .F64 => some (.F64 (fm.f64Bits value))
  | _ => none

/-- rpc WasmValue: the wire-side tagged value. -/
inductive RpcWasmValue where
  | F32 (value : Nat)
  | F64 (value : Nat)
  | I32 (value : Int)
  | I64 (value : Int)
  deriving DecidableEq, Repr

/-- debugger_proxy.rs from_vm_wasm_value. -/
def from_vm_wasm_value : WasmValue → RpcWasmValue
  | .F32 v => .F32 v
  | .F64 v => .F64 v
  | .I32 v => .I32 v
  | .I64 v => .I64 v

/-- wasmparser FuncType: parameter and result types of a function. -/
structure FuncType where
  params : List Ty
  returns : List Ty
  deriving DecidableEq, Repr

/-- Outcome of running a piece of Rust code: a value, an error
propagated with ?, or a panic. -/
inductive Outcome (ε α : Type) where
  | ok (a : α)
  | err (e : ε)
  | panic
  deriving DecidableEq, Repr

/-- inst.rs BrTableData: the non-default branch targets and the default
target of a br_table instruction. -/
structure BrTableData where
  table : List Nat
  default : Nat
  deriving DecidableEq, Repr

/-- One step of the loop inside BrTableData from_payload: a target
flagged as default replaces the pending default, any other target is
appended to the id list. -/
def brTableStep (acc : List Nat × Option Nat) (target : Nat × Bool) :
    List Nat × Option Nat :=
  if target.2 then (acc.1, some target.1) else (acc.1 ++ [target.1], acc.2)

/-- inst.rs WasmInstPayloadFrom for BrTableData: folds over the decoded
(depth, is_default_flag) targets; the final unwrap of the default panics
(none) when no target was flagged as default. -/
def BrTableData.from_payload (targets : List (Nat × Bool)) : Option BrTableData :=
  let fin := targets.foldl brTableStep (([] : List Nat), (none : Option Nat))
  match fin.2 with
  | some d => some { table := fin.1, default := d }
  | none => none

/-- A representative fragment of the wasmparser Operator enum: the
structural operators whose payload lifting inst.rs implements by hand.
The remaining ~440 operators carry their payload through unchanged and
share the offset handling proved below. -/
inductive Operator where
  | Unreachable
  | Nop
  | Br (relative_depth : Nat)
  | BrIf (relative_depth : Nat)
  | BrTable (targets : List (Nat × Bool))
  | End
  deriving DecidableEq, Repr

/-- inst.rs InstructionKind, restricted to the same fragment. -/
inductive InstructionKind where
  | Unreachable
  | Nop
  | Br (relative_depth : Nat)
  | BrIf (relative_depth : Nat)
  | BrTable (table : BrTableData)
  | End
  deriving DecidableEq, Repr

/-- The TryFrom conversion generated by translate_match: each operator
yields the kind of the same name with its payload lifted; the BrTable
payload goes through BrTableData from_payload, whose unwrap panic is
propagated as none. -/
def InstructionKind.try_from : Operator → Option InstructionKind
  | .Unreachable => some .Unreachable
  | .Nop => some .Nop
  | .Br r => some (.Br r)
  | .BrIf r => some (.BrIf r)
  | .BrTable ts => (BrTableData.from_payload ts).map InstructionKind.BrTable
  | .End => some .End

/-- inst.rs Instruction: an operator kind with its byte offset. -/
structure Instruction where
  kind : InstructionKind
  offset : Nat
  deriving DecidableEq, Repr

/-- inst.rs transform_inst: reads one operator with its absolute byte
offset, lifts the kind, and stores offset - base_offset. The read result
is passed in explicitly (the reader is external streaming state); a read
failure is an error, a failed payload lift is a panic (the unwrap inside
from_payload), and offset < base_offset is the debug-mode usize
subtraction overflow panic. -/
def transform_inst (readResult : Except String (Operator × Nat))
    (base_offset : Nat) : Outcome String Instruction :=
  match readResult with
  | .error e => .err e
  | .ok (op, offset) =>
    match InstructionKind.try_from op with
    | none => .panic
    | some kind =>
      if offset < base_offset then .panic
      else .ok { kind := kind, offset := offset - base_offset }

/-- The coercion loop shared by call_exported and remote_call_fn: each
(number, type) pair goes through from_js_number; a pair whose type falls
into the unreachable! arm propagates the panic (none). -/
def coerce_args (fm : FloatModel) : List (JSNumber × Ty) → Option (List WasmValue)
  | [] => some []
  | p :: rest =>
    match from_js_number fm p.1 p.2 with
    | none => none
    | some v =>
      match coerce_args fm rest with
      | none => none
      | some vs => some (v :: vs)

/-- rpc BinaryRequestKind: the only binary request is Init. -/
inductive BinaryRequestKind where
  | Init
  deriving DecidableEq, Repr

/-- rpc BinaryRequest: a kind tag plus the raw module bytes. -/
structure BinaryRequest where
  kind : BinaryRequestKind
  bytes : List Nat
  deriving DecidableEq, Repr

/-- rpc TextRequest: the text commands of the RPC envelope. -/
inductive TextRequest where
  | Version
  | CallResult (values : List JSNumber)
  | CallExported (name : String) (args : List JSNumber)
  | LoadMemory (offset : Nat) (length : Nat)
  | StoreMemory (offset : Nat) (bytes : List Nat)
  deriving DecidableEq, Repr

/-- rpc Request: binary or text. -/
inductive Request where
  | Binary (req : BinaryRequest)
  | Text (t : TextRequest)
  deriving DecidableEq, Repr

/-- rpc WasmExport as reported by Init. -/
inductive WasmExport where
  | Memory (name : String) (memory_size : Nat)
  | Function (name : String)
  deriving DecidableEq, Repr

/-- rpc Response: the text responses produced by the handlers embedded
here (binary responses do not occur on these paths). -/
inductive Response where
  | Version (value : String)
  | Init (exports : List WasmExport)
  | CallResult (values : List RpcWasmValue)
  | LoadMemoryResult (bytes : List Nat)
  | StoreMemoryResult
  | Error (message : String)
  deriving DecidableEq, Repr

/-- The error type flowing out of _handle_request: the proxy-level
CallArgumentLengthMismatch, or an error bubbled up from the debugger and
transport layers (anyhow errors, carried as text). The debugger layers
cannot produce the proxy-level variant, mirroring the crate separation
in the source. -/
inductive RpcError where
  | CallArgumentLengthMismatch
  | other (message : String)
  deriving DecidableEq, Repr

/-- The to_string rendering used when an error is turned into an Error
response. -/
def RpcError.message : RpcError → String
  | .CallArgumentLengthMismatch => "mismatch length of arguments"
  | .other m => m

/-- vm Trap, restricted to the variant raised by the host bridge: an
opaque host-function error, carried as text. -/
inductive Trap where
  | HostFunctionError (message : String)
  deriving DecidableEq, Repr

/-- The transport environment a synthesized remote host function runs
against: the join result of the sender thread (an error when the spawned
send panicked), the result of the blocking receive on the inbound
channel (error when the channel is closed, ok none for the end-of-stream
marker), and the deserializer for the received message. -/
structure RemoteCallEnv (Msg : Type) where
  sendJoin : Except String Unit
  recv : Except String (Option Msg)
  deserialize_request : Msg → Except String Request

/-- debugger_proxy.rs remote_call_fn, the body of the synthesized host
function: send CallHost (outcome given by sendJoin), block on the
inbound channel, deserialize, and unpack a CallResult into the result
slice. Every transport failure maps to a HostFunctionError trap; a
message other than a text CallResult hits the unreachable! arm; the
returned numbers are zipped against ty.params — as in the source — and
converted by from_js_number, whose unreachable! arm is a panic. -/
def remote_call_fn {Msg : Type} (fm : FloatModel) (ty : FuncType)
    (env : RemoteCallEnv Msg) (args : List WasmValue) :
    Outcome Trap (List WasmValue) :=
  match env.sendJoin with
  | .error e => .err (.HostFunctionError e)
  | .ok _ =>
    match env.recv with
    | .error e => .err (.HostFunctionError e)
    | .ok none => .err (.HostFunctionError "unexpected end of message")
    | .ok (some msg) =>
      match env.deserialize_request msg with
      | .error e => .err (.HostFunctionError e)
      | .ok (.Text (.CallResult values)) =>
        match coerce_args fm (values.zip ty.params) with
        | some results => .ok results
        | none => .panic
      | .ok _ => .panic

/-- What an export caller observes from one host call. -/
inductive ExportCallResult where
  | finish (values : List WasmValue)
  | trapped (t : Trap)
  | panicked
  deriving DecidableEq, Repr

/-- Modelled from the spec: the executor (not among the provided files)
invokes a host function body during an export call and a returned trap
unwinds through the frame stack to the export caller. -/
def invoke_host_from_export
    (body : List WasmValue → Outcome Trap (List WasmValue))
    (args : List WasmValue) : ExportCallResult :=
  match body args with
  | .ok vs => .finish vs
  | .err t => .trapped t
  | .panic => .panicked

/-- wasminspect_debugger RunResult as seen by call_exported. -/
inductive RunResult where
  | Finish (values : List WasmValue)
  | Breakpoint
  deriving DecidableEq, Repr

/-- wasmparser ExternalKind of an export entry. -/
inductive ExternalKind where
  | Function
  | Table
  | Memory
  | Global
  | Tag
  deriving DecidableEq, Repr

/-- One parsed entry of the export section: field name and kind. -/
structure ParsedExport where
  field : String
  kind : ExternalKind
  deriving DecidableEq, Repr

/-- The debugger-side environment _handle_request runs against. The
debugger crate functions (lookup_func, func_type, execute_func, memory,
write_memory, load_module) are external to the provided files and are
passed in as result-valued fields; parsed_exports stands for the export
section the wasmparser pass over the module bytes yields; breakpoint_loop
is the outcome of the interactive loop entered on RunResult Breakpoint
(it can error or panic, and its values are those of ProcessFinish). -/
structure DebuggerEnv where
  lookup_func : String → Except String Nat
  func_type : Nat → Except String FuncType
  execute_func : Nat → List WasmValue → Except String RunResult
  breakpoint_loop : Outcome String (List WasmValue)
  remote_import_module : Except String Unit
  load_module : Except String Unit
  parsed_exports : List ParsedExport
  memory : Except String (List Nat)
  write_memory : Nat → List Nat → Except String Unit

/-- The export-section loop of debugger_proxy.rs module_exports: Memory
exports record the current memory length (each read of the debugger
memory can fail), Function exports record the name, every other kind
hits the unimplemented! arm. -/
def module_exports_loop (memo : Except String (List Nat)) :
    List ParsedExport → List WasmExport → Outcome String (List WasmExport)
  | [], acc => .ok acc
  | e :: rest, acc =>
    match e.kind with
    | .Memory =>
      match memo with
      | .error err => .err err
      | .ok mem => module_exports_loop memo rest (acc ++ [.Memory e.field mem.length])
    | .Function => module_exports_loop memo rest (acc ++ [.Function e.field])
    | _ => .panic

/-- debugger_proxy.rs module_exports over the parsed export entries. -/
def module_exports (parsed : List ParsedExport)
    (memo : Except String (List Nat)) : Outcome String (List WasmExport) :=
  module_exports_loop memo parsed []

/-- debugger_proxy.rs call_exported: resolve the export, check the
argument count against the parameter count, coerce each argument to the
corresponding parameter type with from_js_number, execute, and wrap the
finishing values (possibly after the interactive breakpoint loop) into a
CallResult response. -/
def call_exported (fm : FloatModel) (env : DebuggerEnv) (name : String)
    (args : List JSNumber) : Outcome RpcError Response :=
  match env.lookup_func name with
  | .error e => .err (.other e)
  | .ok func =>
  match env.func_type func with
  | .error e => .err (.other e)
  | .ok func_ty =>
  if func_ty.params.length ≠ args.length then
    .err .CallArgumentLengthMismatch
  else
    match coerce_args fm (args.zip func_ty.params) with
    | none => .panic
    | some vmargs =>
    match env.execute_func func vmargs with
    | .error e => .err (.other e)
    | .ok (.Finish values) => .ok (.CallResult (values.map from_vm_wasm_value))
    | .ok .Breakpoint =>
      match env.breakpoint_loop with
      | .ok values => .ok (.CallResult (values.map from_vm_wasm_value))
      | .err e => .err (.other e)
      | .panic => .panic

/-- debugger_proxy.rs _handle_request: dispatch one request. Init resets
and reloads the store and reports the exports; Version answers the
version string; a text CallResult hits the unreachable! arm; CallExported
delegates to call_exported; LoadMemory slices the debugger memory (an
out-of-range slice is a panic in the source); StoreMemory writes. -/
def _handle_request (fm : FloatModel) (env : DebuggerEnv) (req : Request) :
    Outcome RpcError Response :=
  match req with
  | .Binary breq =>
    match breq.kind with
    | .Init =>
      match env.remote_import_module with
      | .error e => .err (.other e)
      | .ok _ =>
      match env.load_module with
      | .error e => .err (.other e)
      | .ok _ =>
      match module_exports env.parsed_exports env.memory with
      | .err e => .err (.other e)
      | .panic => .panic
      | .ok exports => .ok (.Init exports)
  | .Text .Version => .ok (.Version "0.1.0")
  | .Text (.CallResult _) => .panic
  | .Text (.CallExported name args) => call_exported fm env name args
  | .Text (.LoadMemory offset length) =>
    match env.memory with
    | .error e => .err (.other e)
    | .ok mem =>
      if offset + length ≤ mem.length then
        .ok (.LoadMemoryResult ((mem.drop offset).take length))
      else .panic
  | .Text (.StoreMemory offset bytes) =>
    match env.write_memory offset bytes with
    | .error e => .err (.other e)
    | .ok _ => .ok .StoreMemoryResult

/-- debugger_proxy.rs handle_request: run _handle_request and turn an
error result into a single Error text response. -/
def handle_request (fm : FloatModel) (env : DebuggerEnv) (req : Request) :
    Outcome RpcError Response :=
  match _handle_request fm env req with
  | .ok res => .ok res
  | .err e => .ok (.Error e.message)
  | .panic => .panic

/-- A memory instance of the store: a defined instance owning its bytes,
or an import indirection to a memory of another module. Modelled from
the spec: the memory instance types live outside the provided files;
imported instances are an indirection to a defined instance reachable
through the store. -/
inductive MemoryInstance where
  | defined (bytes : List Nat)
  | external (module : Nat) (index : Nat)
  deriving DecidableEq, Repr

/-- Modelled from the spec: the slice of the store that HostFuncBody
call consults — per module, the list of its memory instances (defined or
imported), indexed by ModuleIndex. -/
structure VMStore where
  mems : List (List MemoryInstance)
  deriving DecidableEq, Repr

/-- Modelled from the spec: store memory_count — how many memories the
module has (defined or imported). -/
def VMStore.memory_count (store : VMStore) (module_index : Nat) : Nat :=
  ((store.mems.get? module_index).getD []).length

/-- Modelled from the spec: store memory lookup at MemoryAddr
(module_index, index). -/
def VMStore.memory (store : VMStore) (module_index : Nat) (index : Nat) :
    Option MemoryInstance :=
  ((store.mems.get? module_index).getD []).get? index

/-- The total number of memory instances in the store, used as the fuel
bound for resolving import indirection chains. -/
def VMStore.size (store : VMStore) : Nat :=
  (store.mems.map List.length).sum

/-- Modelled from the spec: resolve_memory_instance follows import
indirections until a defined instance is reached and yields its raw
bytes; the spec invariant says every chain terminates at a defined
instance, so running out of fuel or hitting a dangling address yields
none. -/
def resolve_memory_instance (store : VMStore) :
    Nat → MemoryInstance → Option (List Nat)
  | _, .defined bytes => some bytes
  | 0, .external _ _ => none
  | fuel + 1, .external m i =>
    match store.memory m i with
    | some inst => resolve_memory_instance store fuel inst
    | none => none

/-- host.rs HostFuncBody call: when the calling module has at least one
memory, the host context carries the raw bytes of its memory 0 resolved
through import indirections; otherwise it carries an empty slice. The
embedder code is abstracted as a function of (args, results, mem); none
stands for a panic in the store lookup or resolution, which the spec
invariants rule out. -/
def HostFuncBody.call {R : Type}
    (code : List WasmValue → List WasmValue → List Nat → R)
    (store : VMStore) (module_index : Nat)
    (param : List WasmValue) (results : List WasmValue) : Option R :=
  if 0 < store.memory_count module_index then
    match store.memory module_index 0 with
    | some inst =>
      (resolve_memory_instance store store.size inst).map
        (fun raw_mem => code param results raw_mem)
    | none => none
  else
    some (code param results [])

/-- module.rs ExternalValue (defined in the export module, outside the
provided files): the typed handle an export carries. Addresses are kept
as bare local indices. -/
inductive ExternalValue where
  | Func (addr : Nat)
  | Global (addr : Nat)
  | Mem (addr : Nat)
  | Table (addr : Nat)
  deriving DecidableEq, Repr

/-- Modelled from the spec: the kind string of an ExternalValue, used in
TypeMismatch errors; mirrors HostValue ty in host.rs. -/
def ExternalValue.ty : ExternalValue → String
  | .Func _ => "function"
  | .Global _ => "global"
  | .Mem _ => "memory"
  | .Table _ => "table"

/-- Projection to a function handle. -/
def ExternalValue.funcAddr : ExternalValue → Option Nat
  | .Func a => some a
  | _ => none

/-- Projection to a global handle. -/
def ExternalValue.globalAddr : ExternalValue → Option Nat
  | .Global a => some a
  | _ => none

/-- Projection to a memory handle. -/
def ExternalValue.memAddr : ExternalValue → Option Nat
  | .Mem a => some a
  | _ => none

/-- Projection to a table handle. -/
def ExternalValue.tableAddr : ExternalValue → Option Nat
  | .Table a => some a
  | _ => none

/-- module.rs ExportInstance: an export entry, name and typed handle. -/
structure ExportInstance where
  name : String
  value : ExternalValue
  deriving DecidableEq, Repr

/-- module.rs DefinedModuleError. -/
inductive DefinedModuleError where
  | TypeMismatch (expected : String) (actual : String)
  deriving DecidableEq, Repr

/-- module.rs DefinedModuleInstance exported_by_name: the first export
carrying the name, in export-section order (iter, filter, next). -/
def exported_by_name (exports : List ExportInstance) (name : String) :
    Option ExportInstance :=
  (exports.filter (fun e => e.name == name)).head?

/-- module.rs exported_func. -/
def exported_func (exports : List ExportInstance) (name : String) :
    Except DefinedModuleError (Option Nat) :=
  match exported_by_name exports name with
  | some e =>
    match e.value with
    | .Func addr => .ok (some addr)
    | _ => .error (.TypeMismatch "function" e.value.ty)
  | none => .ok none

/-- module.rs exported_global. -/
def exported_global (exports : List ExportInstance) (name : String) :
    Except DefinedModuleError (Option Nat) :=
  match exported_by_name exports name with
  | some e =>
    match e.value with
    | .Global addr => .ok (some addr)
    | _ => .error (.TypeMismatch "global" e.value.ty)
  | none => .ok none

/-- module.rs exported_table. -/
def exported_table (exports : List ExportInstance) (name : String) :
    Except DefinedModuleError (Option Nat) :=
  match exported_by_name exports name with
  | some e =>
    match e.value with
    | .Table addr => .ok (some addr)
    | _ => .error (.TypeMismatch "table" e.value.ty)
  | none => .ok none

/-- module.rs exported_memory. -/
def exported_memory (exports : List ExportInstance) (name : String) :
    Except DefinedModuleError (Option Nat) :=
  match exported_by_name exports name with
  | some e =>
    match e.value with
    | .Mem addr => .ok (some addr)
    | _ => .error (.TypeMismatch "memory" e.value.ty)
  | none => .ok none

/-- The behaviour an export lookup accessor must have: ok none exactly
when no export carries the name; ok (some addr) exactly when the first
export with the name (nothing before it carries the name) projects to
that handle; a TypeMismatch error exactly when the first export with the
name is of a different kind, with the expected kind tag and the actual
kind string. -/
def lookup_spec
    (accessor : List ExportInstance → String → Except DefinedModuleError (Option Nat))
    (expected : String) (proj : ExternalValue → Option Nat) : Prop :=
  ∀ exports name,
    (accessor exports name = .ok none ↔ ∀ e ∈ exports, e.name ≠ name) ∧
    (∀ addr, accessor exports name = .ok (some addr) ↔
      ∃ l1 e l2, exports = l1 ++ e :: l2 ∧ (∀ x ∈ l1, x.name ≠ name) ∧
        e.name = name ∧ proj e.value = some addr) ∧
    (∀ err, accessor exports name = .error err ↔
      ∃ l1 e l2, exports = l1 ++ e :: l2 ∧ (∀ x ∈ l1, x.name ≠ name) ∧
        e.name = name ∧ proj e.value = none ∧
        err = .TypeMismatch expected e.value.ty)

/-- A concrete float model for evaluating the embedding on concrete
inputs: every cast reads the stored bit pattern. -/
def fm0 : FloatModel where
  asI32 := fun j => (j.bits : Int)
  asI64 := fun j => (j.bits : Int)
  f32Bits := fun j => j.bits
  f64Bits := fun j => j.bits

/-- A host-function signature with no parameters and one i32 result. -/
def tyImport : FuncType := { params := [], returns := [.I32] }

/-- A transport on which the client answers the outstanding CallHost
with CallResult containing the single number 7. -/
def envReply7 : RemoteCallEnv Nat where
  sendJoin := .ok ()
  recv := .ok (some 0)
  deserialize_request := fun _ => .ok (.Text (.CallResult [⟨7⟩]))

/-- A transport whose inbound channel is closed: the blocking receive
fails. -/
def envClosed : RemoteCallEnv Nat where
  sendJoin := .ok ()
  recv := .error "receiving on a closed channel"
  deserialize_request := fun _ => .error "unused"

/-- A debugger environment on which every operation succeeds: one
function of type (i32) -> (), a three-byte memory. -/
def env0 : DebuggerEnv where
  lookup_func := fun _ => .ok 0
  func_type := fun _ => .ok { params := [.I32], returns := [] }
  execute_func := fun _ _ => .ok (.Finish [.I32 5])
  breakpoint_loop := .ok []
  remote_import_module := .ok ()
  load_module := .ok ()
  parsed_exports := []
  memory := .ok [0, 1, 2]
  write_memory := fun _ _ => .ok ()

/-- env0 with a failing function lookup. -/
def envLookupFail : DebuggerEnv :=
  { env0 with lookup_func := fun _ => .error "no such function" }

/-- env0 with a function whose single parameter type is v128. -/
def envV128 : DebuggerEnv :=
  { env0 with func_type := fun _ => .ok { params := [.V128], returns := [] } }

/-- A store with two modules: module 0 owns a defined three-byte memory,
module 1 imports it. -/
def store0 : VMStore := { mems := [[.defined [1, 2, 3]], [.external 0 0]] }

/-- Folding brTableStep over targets none of which is flagged default
appends their depths in order and leaves the pending default alone. -/
theorem foldl_brTableStep_no_default (l : List (Nat × Bool)) (acc : List Nat)
    (d : Option Nat) (h : ∀ t ∈ l, t.2 = false) :
    l.foldl brTableStep (acc, d) = (acc ++ l.map Prod.fst, d) := by
  induction l generalizing acc with
  | nil => simp
  | cons t rest ih =>
    have ht : t.2 = false := h t (List.mem_cons_self t rest)
    have hrest : ∀ x ∈ rest, x.2 = false := fun x hx => h x (List.mem_cons_of_mem t hx)
    rw [List.foldl_cons]
    show rest.foldl brTableStep (brTableStep (acc, d) t) = _
    rw [show brTableStep (acc, d) t = (acc ++ [t.1], d) by simp [brTableStep, ht]]
    rw [ih (acc ++ [t.1]) hrest]
    simp

/-- The pending default after folding brTableStep is none exactly when
it started none and no folded target was flagged default. -/
theorem foldl_brTableStep_snd_none (l : List (Nat × Bool)) (st : List Nat × Option Nat) :
    (l.foldl brTableStep st).2 = none ↔ (st.2 = none ∧ ∀ t ∈ l, t.2 = false) := by
  induction l generalizing st with
  | nil => simp
  | cons t rest ih =>
    rw [List.foldl_cons, ih]
    by_cases ht : t.2 = true
    · simp [brTableStep, ht]
    · have ht2 : t.2 = false := by simpa using ht
      simp only [brTableStep, ht2, if_false, Bool.false_eq_true]
      constructor
      · rintro ⟨h1, h2⟩
        exact ⟨h1, by intro x hx; rcases List.mem_cons.mp hx with rfl | hx2
                      exacts [ht2, h2 x hx2]⟩
      · rintro ⟨h1, h2⟩
        exact ⟨h1, fun x hx => h2 x (List.mem_cons_of_mem t hx)⟩

/-- C2: for a decoded br_table target list — the default target decoded
last and flagged, the others unflagged — the lifted BrTableData has
default equal to the final entry and table equal to the remaining
entries in source order. -/
theorem br_table_split_default_last (l : List (Nat × Bool)) (d : Nat)
    (h : ∀ t ∈ l, t.2 = false) :
    BrTableData.from_payload (l ++ [(d, true)]) =
      some { table := l.map Prod.fst, default := d } := by
  unfold BrTableData.from_payload
  rw [List.foldl_append, foldl_brTableStep_no_default l [] none h]
  simp [brTableStep]

/-- Witness for br_table_split_default_last at the concrete target list
[(1, false), (2, false), (9, true)]. -/
theorem br_table_split_default_last_witness :
    BrTableData.from_payload [(1, false), (2, false), (9, true)] =
      some { table := [1, 2], default := 9 } :=
  br_table_split_default_last [(1, false), (2, false)] 9 (by decide)

/-- C9: BrTableData.from_payload hits the unwrap-of-None panic exactly
when no decoded target is flagged as the default, and is total (yields
some lifted payload) whenever a default-flagged target exists, in
particular under the wasmparser contract of exactly one flagged entry. -/
theorem br_table_from_payload_panic_iff (targets : List (Nat × Bool)) :
    (BrTableData.from_payload targets = none ↔ ∀ t ∈ targets, t.2 = false) ∧
    ((∃ t ∈ targets, t.2 = true) → ∃ data, BrTableData.from_payload targets = some data) := by
  have hsnd := foldl_brTableStep_snd_none targets ([], none)
  constructor
  · unfold BrTableData.from_payload
    cases hfin : (targets.foldl brTableStep ([], none)).2 with
    | none =>
      simp only [hfin]
      simpa [hfin] using hsnd
    | some dv =>
      simp only [hfin]
      rw [hfin] at hsnd
      constructor
      · intro hco; exact absurd hco (by simp)
      · intro hall
        exact absurd (hsnd.mpr ⟨rfl, hall⟩) (by simp)
  · intro ⟨t, hmem, hflag⟩
    unfold BrTableData.from_payload
    cases hfin : (targets.foldl brTableStep ([], none)).2 with
    | none =>
      rw [hfin] at hsnd
      have hall := (hsnd.mp rfl).2
      rw [hall t hmem] at hflag
      exact absurd hflag (by simp)
    | some dv =>
      refine ⟨{ table := (targets.foldl brTableStep ([], none)).1, default := dv }, ?_⟩
      simp [BrTableData.from_payload, hfin]

/-- C6: for an operator read successfully at absolute byte offset abs
from a body whose payload starts at base_offset <= abs, transform_inst
produces exactly one Instruction, whose offset field is the absolute
offset minus the payload start (so offset + base_offset recovers the
absolute position; the offset is body-relative, not module-relative). -/
theorem transform_inst_offset_rel (op : Operator) (abs base : Nat)
    (k : InstructionKind) (hk : InstructionKind.try_from op = some k)
    (hb : base ≤ abs) :
    transform_inst (.ok (op, abs)) base = .ok { kind := k, offset := abs - base } ∧
    (abs - base) + base = abs := by
  constructor
  · simp [transform_inst, hk, Nat.not_lt.mpr hb]
  · exact Nat.sub_add_cancel hb

/-- Witness for transform_inst_offset_rel: a Nop read at absolute offset
10 in a body starting at 4 yields offset 6. -/
theorem transform_inst_offset_rel_witness :
    transform_inst (.ok (.Nop, 10)) 4 = .ok { kind := .Nop, offset := 6 } ∧
    6 + 4 = 10 :=
  transform_inst_offset_rel .Nop 10 4 .Nop rfl (by decide)

/-- C1: evaluation of remote_call_fn at a host function typed () -> i32
whose client reply carries one number. The source zips the returned
values with the parameter types (ty.params), so with no parameters it
writes no typed value into the result slice, although the signature
declares one result; converting per the declared result types would
write one i32. -/
theorem remote_call_results_use_params_not_returns :
    remote_call_fn fm0 tyImport envReply7 [] = .ok [] ∧
    tyImport.returns.length = 1 :=
  ⟨rfl, rfl⟩

/-- C4: when the send has completed and the inbound channel is closed
(the receive errors) or delivers the end-of-stream marker (none) while
the call awaits its CallResult, the synthesized host function returns a
HostFunctionError trap, which the executor surfaces to the export caller
as a trap. -/
theorem remote_call_closed_channel_traps {Msg : Type} (fm : FloatModel)
    (ty : FuncType) (env : RemoteCallEnv Msg) (args : List WasmValue)
    (hsend : env.sendJoin = .ok ())
    (hrecv : (∃ e, env.recv = .error e) ∨ env.recv = .ok none) :
    ∃ emsg, remote_call_fn fm ty env args = .err (.HostFunctionError emsg) ∧
      invoke_host_from_export (remote_call_fn fm ty env) args =
        .trapped (.HostFunctionError emsg) := by
  rcases hrecv with ⟨e, herr⟩ | hnone
  · exact ⟨e, by simp [remote_call_fn, hsend, herr],
      by simp [invoke_host_from_export, remote_call_fn, hsend, herr]⟩
  · exact ⟨"unexpected end of message", by simp [remote_call_fn, hsend, hnone],
      by simp [invoke_host_from_export, remote_call_fn, hsend, hnone]⟩

/-- Witness for remote_call_closed_channel_traps on the concrete closed
transport. -/
theorem remote_call_closed_channel_traps_witness :
    ∃ emsg, remote_call_fn fm0 tyImport envClosed [] =
        .err (.HostFunctionError emsg) ∧
      invoke_host_from_export (remote_call_fn fm0 tyImport envClosed) [] =
        .trapped (.HostFunctionError emsg) :=
  remote_call_closed_channel_traps fm0 tyImport envClosed []
    rfl (Or.inl ⟨"receiving on a closed channel", rfl⟩)

/-- C3 counterexample: a text CallResult request hits the unreachable!
arm of _handle_request, so handle_request panics on it instead of
producing a response — the claim that no request makes handling panic is
false. -/
theorem handle_request_call_result_panics :
    handle_request fm0 env0 (.Text (.CallResult [])) = .panic :=
  rfl

/-- C3 amended: whenever request handling returns (rather than
panicking), handle_request produces a response: an error result is
converted into a single Error text response carrying the rendered
message, and handle_request never propagates an error outcome. -/
theorem handle_request_error_to_response (fm : FloatModel) (env : DebuggerEnv)
    (req : Request) :
    (_handle_request fm env req ≠ .panic →
       ∃ res, handle_request fm env req = .ok res) ∧
    (∀ e, _handle_request fm env req = .err e →
       handle_request fm env req = .ok (.Error e.message)) ∧
    (∀ e, handle_request fm env req ≠ .err e) := by
  cases h : _handle_request fm env req with
  | ok r =>
    exact ⟨fun _ => ⟨r, by simp [handle_request, h]⟩,
      fun e he => Outcome.noConfusion he,
      fun e => by simp [handle_request, h]⟩
  | err e0 =>
    refine ⟨fun _ => ⟨.Error e0.message, by simp [handle_request, h]⟩,
      fun e he => ?_, fun e => by simp [handle_request, h]⟩
    cases he
    simp [handle_request, h]
  | panic =>
    exact ⟨fun hne => absurd rfl hne,
      fun e he => Outcome.noConfusion he,
      fun e => by simp [handle_request, h]⟩

/-- Witness for handle_request_error_to_response: a failing lookup in
CallExported is answered with an Error response. -/
theorem handle_request_error_to_response_witness :
    handle_request fm0 envLookupFail (.Text (.CallExported "g" [])) =
      .ok (.Error "no such function") :=
  (handle_request_error_to_response fm0 envLookupFail
      (.Text (.CallExported "g" []))).2.1 (.other "no such function") rfl

/-- C7: with the export resolved and its type read, call_exported
returns CallArgumentLengthMismatch exactly when the argument count
differs from the declared parameter count (no execution outcome can
produce that error, so in the error case nothing was executed), and with
matching counts each argument is coerced by from_js_number to the
corresponding parameter type and execution of those coerced values
yields their CallResult. -/
theorem call_exported_mismatch_iff (fm : FloatModel) (env : DebuggerEnv)
    (name : String) (args : List JSNumber) (func : Nat) (func_ty : FuncType)
    (hlookup : env.lookup_func name = .ok func)
    (hty : env.func_type func = .ok func_ty) :
    (call_exported fm env name args = .err .CallArgumentLengthMismatch ↔
      func_ty.params.length ≠ args.length) ∧
    (∀ vmargs values, func_ty.params.length = args.length →
      coerce_args fm (args.zip func_ty.params) = some vmargs →
      env.execute_func func vmargs = .ok (.Finish values) →
      call_exported fm env name args =
        .ok (.CallResult (values.map from_vm_wasm_value))) := by
  unfold call_exported
  simp only [hlookup, hty]
  by_cases hlen : func_ty.params.length = args.length
  · rw [if_neg (by simp [hlen])]
    constructor
    · constructor
      · intro hco
        exfalso
        cases hm : coerce_args fm (args.zip func_ty.params) with
        | none => simp only [hm] at hco; exact Outcome.noConfusion hco
        | some vmargs =>
          simp only [hm] at hco
          cases hex : env.execute_func func vmargs with
          | error e => simp only [hex] at hco; exact absurd hco (by simp)
          | ok r =>
            cases r with
            | Finish values =>
              simp only [hex] at hco; exact absurd hco (by simp)
            | Breakpoint =>
              simp only [hex] at hco
              cases hbl : env.breakpoint_loop with
              | ok values => simp only [hbl] at hco; exact absurd hco (by simp)
              | err e => simp only [hbl] at hco; exact absurd hco (by simp)
              | panic => simp only [hbl] at hco; exact Outcome.noConfusion hco
      · intro hne; exact absurd hlen hne
    · intro vmargs values _ hm hex
      simp only [hm, hex]
  · rw [if_pos (by simpa using hlen)]
    constructor
    · exact ⟨fun _ => hlen, fun _ => rfl⟩
    · intro vmargs values heq; exact absurd heq hlen

/-- Witness for call_exported_mismatch_iff: calling the (i32) -> ()
export with no arguments yields the mismatch error. -/
theorem call_exported_mismatch_iff_witness :
    call_exported fm0 env0 "f" [] = .err .CallArgumentLengthMismatch :=
  ((call_exported_mismatch_iff fm0 env0 "f" [] 0
      { params := [.I32], returns := [] } rfl rfl).1).mpr (by decide)

/-- When a parameter list contains a type from_js_number cannot convert
and every parameter is paired with an argument, the coercion of the
zipped list panics (yields none). -/
theorem coerce_args_none (fm : FloatModel) (ty : Ty)
    (hnum : ∀ v, from_js_number fm v ty = none) :
    ∀ (params : List Ty) (args : List JSNumber), params.length ≤ args.length →
      ty ∈ params →
      coerce_args fm (args.zip params) = none := by
  intro params
  induction params with
  | nil => intro args _ hmem; cases hmem
  | cons p ps ih =>
    intro args hlen hmem
    cases args with
    | nil => simp at hlen
    | cons a as =>
      rcases List.mem_cons.mp hmem with rfl | hmem2
      · simp [coerce_args, hnum a]
      · have hrest : coerce_args fm (List.zipWith Prod.mk as ps) = none :=
          ih as (by simpa using hlen) hmem2
        simp only [List.zip_cons_cons, coerce_args, hrest]
        cases from_js_number fm a p <;> rfl

/-- C8: from_js_number is defined only for the four numeric types: every
other type falls into the unreachable! arm. Consequently CallExported on
a function whose parameter list contains such a type panics (instead of
answering with an Error response), and a remote host call whose
signature pairs every parameter with a returned number and involves such
a type panics as well. -/
theorem non_numeric_type_panics (fm : FloatModel) (value : JSNumber) (ty : Ty)
    (h1 : ty ≠ .I32) (h2 : ty ≠ .I64) (h3 : ty ≠ .F32) (h4 : ty ≠ .F64) :
    from_js_number fm value ty = none ∧
    (∀ env name args func func_ty,
      env.lookup_func name = .ok func →
      env.func_type func = .ok func_ty →
      func_ty.params.length = args.length →
      ty ∈ func_ty.params →
      call_exported fm env name args = .panic) ∧
    (∀ (Msg : Type) (fty : FuncType) (env : RemoteCallEnv Msg)
       (args : List WasmValue) (msg : Msg) (values : List JSNumber),
      env.sendJoin = .ok () →
      env.recv = .ok (some msg) →
      env.deserialize_request msg = .ok (.Text (.CallResult values)) →
      fty.params.length ≤ values.length →
      ty ∈ fty.params →
      remote_call_fn fm fty env args = .panic) := by
  have hnum : ∀ v, from_js_number fm v ty = none := by
    intro v
    cases ty
    case I32 => exact absurd rfl h1
    case I64 => exact absurd rfl h2
    case F32 => exact absurd rfl h3
    case F64 => exact absurd rfl h4
    all_goals rfl
  refine ⟨hnum value, ?_, ?_⟩
  · intro env name args func func_ty hlookup hty hlen hmem
    have hmap := coerce_args_none fm ty hnum func_ty.params args
      (le_of_eq hlen) hmem
    unfold call_exported
    simp only [hlookup, hty]
    rw [if_neg (by simp [hlen])]
    simp only [hmap]
  · intro Msg fty env args msg values hsend hrecv hdes hlen hmem
    have hmap := coerce_args_none fm ty hnum fty.params values hlen hmem
    unfold remote_call_fn
    simp only [hsend, hrecv, hdes, hmap]

/-- Witness for non_numeric_type_panics: CallExported on the (v128) ->
() export panics. -/
theorem non_numeric_type_panics_witness :
    call_exported fm0 envV128 "f" [⟨0⟩] = .panic :=
  ((non_numeric_type_panics fm0 ⟨0⟩ .V128 (by decide) (by decide) (by decide)
      (by decide)).2.1) envV128 "f" [⟨0⟩] 0 { params := [.V128], returns := [] }
    rfl rfl rfl (by decide)

/-- C5: HostFuncBody call passes the embedder code a host context whose
mem is the raw byte contents of memory 0 of the calling module, resolved
through import indirections, when the module has at least one memory,
and an empty slice when it has none. -/
theorem host_func_call_mem_ctx {R : Type}
    (code : List WasmValue → List WasmValue → List Nat → R)
    (store : VMStore) (module_index : Nat)
    (param results : List WasmValue) :
    (store.memory_count module_index = 0 →
      HostFuncBody.call code store module_index param results =
        some (code param results [])) ∧
    (∀ inst bytes, store.memory module_index 0 = some inst →
      resolve_memory_instance store store.size inst = some bytes →
      HostFuncBody.call code store module_index param results =
        some (code param results bytes)) := by
  constructor
  · intro h0
    unfold HostFuncBody.call
    rw [if_neg (by simp [h0])]
  · intro inst bytes hmem hres
    have hpos : 0 < store.memory_count module_index := by
      unfold VMStore.memory_count
      unfold VMStore.memory at hmem
      cases hL : (store.mems.get? module_index).getD [] with
      | nil => rw [hL] at hmem; simp at hmem
      | cons x xs => simp [hL]
    unfold HostFuncBody.call
    rw [if_pos hpos]
    simp only [hmem, hres]
    rfl

/-- Witness for host_func_call_mem_ctx: in store0, a host function
called from module 1 (whose memory 0 is imported from module 0) sees the
bytes of module 0. -/
theorem host_func_call_mem_ctx_witness :
    HostFuncBody.call (fun _ _ mem => mem) store0 1 [] [] = some [1, 2, 3] :=
  (host_func_call_mem_ctx (fun _ _ mem => mem) store0 1 [] []).2
    (.external 0 0) [1, 2, 3] rfl rfl

/-- exported_by_name misses exactly when no export carries the name. -/
theorem exported_by_name_eq_none_iff (exports : List ExportInstance)
    (name : String) :
    exported_by_name exports name = none ↔ ∀ e ∈ exports, e.name ≠ name := by
  induction exports with
  | nil => simp [exported_by_name]
  | cons a as ih =>
    by_cases ha : a.name = name
    · simp [exported_by_name, List.filter_cons, ha]
    · have heq : exported_by_name (a :: as) name = exported_by_name as name := by
        simp [exported_by_name, List.filter_cons, ha]
      rw [heq, ih]
      constructor
      · intro h e he
        rcases List.mem_cons.mp he with rfl | he2
        · exact ha
        · exact h e he2
      · intro h e he
        exact h e (List.mem_cons_of_mem a he)

/-- exported_by_name finds e exactly when the export list splits into a
prefix without the name, then e carrying the name: the first export with
the name in export-section order. -/
theorem exported_by_name_eq_some_iff (exports : List ExportInstance)
    (name : String) (e : ExportInstance) :
    exported_by_name exports name = some e ↔
      ∃ l1 l2, exports = l1 ++ e :: l2 ∧ (∀ x ∈ l1, x.name ≠ name) ∧
        e.name = name := by
  induction exports with
  | nil => simp [exported_by_name]
  | cons a as ih =>
    by_cases ha : a.name = name
    · constructor
      · intro h
        have hae : a = e := by
          simpa [exported_by_name, List.filter_cons, ha] using h
        subst hae
        exact ⟨[], as, rfl, by simp, ha⟩
      · rintro ⟨l1, l2, hsplit, hl1, hename⟩
        cases l1 with
        | nil =>
          simp only [List.nil_append, List.cons.injEq] at hsplit
          rcases hsplit with ⟨rfl, rfl⟩
          simp [exported_by_name, List.filter_cons, ha]
        | cons b bs =>
          simp only [List.cons_append, List.cons.injEq] at hsplit
          rcases hsplit with ⟨rfl, hrest⟩
          exact absurd ha (hl1 a (List.mem_cons_self _ _))
    · have heq : exported_by_name (a :: as) name = exported_by_name as name := by
        simp [exported_by_name, List.filter_cons, ha]
      rw [heq, ih]
      constructor
      · rintro ⟨l1, l2, rfl, hl1, hename⟩
        refine ⟨a :: l1, l2, rfl, ?_, hename⟩
        intro x hx
        rcases List.mem_cons.mp hx with rfl | hx2
        · exact ha
        · exact hl1 x hx2
      · rintro ⟨l1, l2, hsplit, hl1, hename⟩
        cases l1 with
        | nil =>
          simp only [List.nil_append, List.cons.injEq] at hsplit
          rcases hsplit with ⟨rfl, rfl⟩
          exact absurd hename ha
        | cons b bs =>
          simp only [List.cons_append, List.cons.injEq] at hsplit
          rcases hsplit with ⟨rfl, rfl⟩
          exact ⟨bs, l2, rfl, fun x hx => hl1 x (List.mem_cons_of_mem _ hx), hename⟩

/-- Any accessor of the shape shared by the four exported lookups — take
the first export with the name, project its handle, and report a
TypeMismatch with the expected kind tag on a projection failure —
satisfies lookup_spec. -/
theorem lookup_spec_of
    (accessor : List ExportInstance → String → Except DefinedModuleError (Option Nat))
    (expected : String) (proj : ExternalValue → Option Nat)
    (hshape : ∀ exports name, accessor exports name =
      match exported_by_name exports name with
      | some e =>
        match proj e.value with
        | some addr => .ok (some addr)
        | none => .error (.TypeMismatch expected e.value.ty)
      | none => .ok none) :
    lookup_spec accessor expected proj := by
  intro exports name
  rw [hshape exports name]
  refine ⟨?_, ?_, ?_⟩
  · cases h : exported_by_name exports name with
    | none =>
      exact ⟨fun _ => (exported_by_name_eq_none_iff exports name).mp h,
        fun _ => rfl⟩
    | some e =>
      rcases (exported_by_name_eq_some_iff exports name e).mp h with
        ⟨l1, l2, hsplit, hl1, hename⟩
      constructor
      · intro hco
        exfalso
        cases hv : proj e.value with
        | some a => simp only [hv] at hco; exact absurd hco (by simp)
        | none => simp only [hv] at hco; exact Except.noConfusion hco
      · intro hall
        exact absurd hename (hall e (by rw [hsplit]; simp))
  · intro addr
    cases h : exported_by_name exports name with
    | none =>
      constructor
      · intro hco; exact absurd hco (by simp)
      · rintro ⟨l1, e2, l2, hsplit, hl1, hen, hp⟩
        have h2 : exported_by_name exports name = some e2 :=
          (exported_by_name_eq_some_iff exports name e2).mpr ⟨l1, l2, hsplit, hl1, hen⟩
        rw [h] at h2
        exact Option.noConfusion h2
    | some e =>
      constructor
      · intro hco
        cases hv : proj e.value with
        | none => simp only [hv] at hco; exact absurd hco (by simp)
        | some a =>
          simp only [hv] at hco
          have haddr : a = addr := by simpa using hco
          subst haddr
          rcases (exported_by_name_eq_some_iff exports name e).mp h with
            ⟨l1, l2, hsplit, hl1, hen⟩
          exact ⟨l1, e, l2, hsplit, hl1, hen, hv⟩
      · rintro ⟨l1, e2, l2, hsplit, hl1, hen, hp⟩
        have h2 : exported_by_name exports name = some e2 :=
          (exported_by_name_eq_some_iff exports name e2).mpr ⟨l1, l2, hsplit, hl1, hen⟩
        rw [h] at h2
        cases h2
        simp only [hp]
  · intro err
    cases h : exported_by_name exports name with
    | none =>
      constructor
      · intro hco; exact Except.noConfusion hco
      · rintro ⟨l1, e2, l2, hsplit, hl1, hen, hp, herr⟩
        have h2 : exported_by_name exports name = some e2 :=
          (exported_by_name_eq_some_iff exports name e2).mpr ⟨l1, l2, hsplit, hl1, hen⟩
        rw [h] at h2
        exact Option.noConfusion h2
    | some e =>
      constructor
      · intro hco
        cases hv : proj e.value with
        | some a => simp only [hv] at hco; exact Except.noConfusion hco
        | none =>
          simp only [hv] at hco
          have herr : err = DefinedModuleError.TypeMismatch expected e.value.ty := by
            simpa using hco.symm
          rcases (exported_by_name_eq_some_iff exports name e).mp h with
            ⟨l1, l2, hsplit, hl1, hen⟩
          exact ⟨l1, e, l2, hsplit, hl1, hen, hv, herr⟩
      · rintro ⟨l1, e2, l2, hsplit, hl1, hen, hp, herr⟩
        have h2 : exported_by_name exports name = some e2 :=
          (exported_by_name_eq_some_iff exports name e2).mpr ⟨l1, l2, hsplit, hl1, hen⟩
        rw [h] at h2
        cases h2
        simp only [hp, herr]

/-- exported_func has the shared lookup shape with the function
projection. -/
theorem exported_func_shape (exports : List ExportInstance) (name : String) :
    exported_func exports name =
      match exported_by_name exports name with
      | some e =>
        match ExternalValue.funcAddr e.value with
        | some addr => .ok (some addr)
        | none => .error (.TypeMismatch "function" e.value.ty)
      | none => .ok none := by
  unfold exported_func
  cases exported_by_name exports name with
  | none => rfl
  | some e =>
    obtain ⟨nm, v⟩ := e
    cases v <;> rfl

/-- exported_global has the shared lookup shape with the global
projection. -/
theorem exported_global_shape (exports : List ExportInstance) (name : String) :
    exported_global exports name =
      match exported_by_name exports name with
      | some e =>
        match ExternalValue.globalAddr e.value with
        | some addr => .ok (some addr)
        | none => .error (.TypeMismatch "global" e.value.ty)
      | none => .ok none := by
  unfold exported_global
  cases exported_by_name exports name with
  | none => rfl
  | some e =>
    obtain ⟨nm, v⟩ := e
    cases v <;> rfl

/-- exported_table has the shared lookup shape with the table
projection. -/
theorem exported_table_shape (exports : List ExportInstance) (name : String) :
    exported_table exports name =
      match exported_by_name exports name with
      | some e =>
        match ExternalValue.tableAddr e.value with
        | some addr => .ok (some addr)
        | none => .error (.TypeMismatch "table" e.value.ty)
      | none => .ok none := by
  unfold exported_table
  cases exported_by_name exports name with
  | none => rfl
  | some e =>
    obtain ⟨nm, v⟩ := e
    cases v <;> rfl

/-- exported_memory has the shared lookup shape with the memory
projection. -/
theorem exported_memory_shape (exports : List ExportInstance) (name : String) :
    exported_memory exports name =
      match exported_by_name exports name with
      | some e =>
        match ExternalValue.memAddr e.value with
        | some addr => .ok (some addr)
        | none => .error (.TypeMismatch "memory" e.value.ty)
      | none => .ok none := by
  unfold exported_memory
  cases exported_by_name exports name with
  | none => rfl
  | some e =>
    obtain ⟨nm, v⟩ := e
    cases v <;> rfl

/-- C10: each of the four export accessors returns ok none when no
export carries the name, ok (some handle) for the first export with the
name when it is of the accessor kind, and a TypeMismatch of the expected
kind tag against the actual kind when the first export with the name is
of a different kind; lookup always selects the first export with the
name in export-section order. -/
theorem exported_lookup_first_match :
    lookup_spec exported_func "function" ExternalValue.funcAddr ∧
    lookup_spec exported_global "global" ExternalValue.globalAddr ∧
    lookup_spec exported_table "table" ExternalValue.tableAddr ∧
    lookup_spec exported_memory "memory" ExternalValue.memAddr :=
  ⟨lookup_spec_of _ _ _ exported_func_shape,
   lookup_spec_of _ _ _ exported_global_shape,
   lookup_spec_of _ _ _ exported_table_shape,
   lookup_spec_of _ _ _ exported_memory_shape⟩

end Wasminspect
